import Mathlib

/-!
Verification development for the mcp-server-time repository.

The repository exposes four time operations (get_time, format_time,
parse_time, timezone_info) over an MCP/HTTP surface.  The format table
and the input/output record types are embedded from
src/internal/time/types.go; the tool handlers from the tools package;
the health handler from src/internal/server/server.go.  The time
service implementation itself (service.go) is not part of the provided
sources, so the four operations are modelled from the specification,
on top of an explicit embedding of Gregorian calendar arithmetic in
the style of Go's time package (400/100/4/1-year cycle decomposition).
-/

namespace MCPTime

/-! ## Format types, from src/internal/time/types.go -/

/-- Go `time.RFC3339` layout constant. -/
def rfc3339Layout : String := "2006-01-02T15:04:05Z07:00"

/-- Go `time.RFC3339Nano` layout constant. -/
def rfc3339NanoLayout : String := "2006-01-02T15:04:05.999999999Z07:00"

/-- Embeds `IsValidFormat` (types.go lines 46-53): a format string is
valid iff it is one of the seven enumerated format tokens. -/
def IsValidFormat (format : String) : Bool :=
  format == "RFC3339" || format == "RFC3339Nano" || format == "Unix" ||
    format == "UnixMilli" || format == "UnixMicro" || format == "UnixNano" ||
    format == "Layout"

/-- Embeds `GetFormatLayout` (types.go lines 56-65): returns the Go
layout string for a format token, falling back to RFC3339 for every
token other than RFC3339 and RFC3339Nano. -/
def GetFormatLayout (format : String) : String :=
  if format == "RFC3339" then rfc3339Layout
  else if format == "RFC3339Nano" then rfc3339NanoLayout
  else rfc3339Layout

/-! ## Gregorian calendar arithmetic

Modelled from the spec: the time service is described as "a thin
pass-through to the host platform's timezone database and date-time
formatting routines"; these definitions embed the proleptic Gregorian
calendar conversions performed by Go's `time` package, using its
400/100/4/1-year cycle decomposition anchored at January 1 of year 1.
719162 is the number of days from 0001-01-01 to 1970-01-01. -/

/-- Leap year predicate of the proleptic Gregorian calendar. -/
def isLeapYear (y : Int) : Bool :=
  y % 4 == 0 && (y % 100 != 0 || y % 400 == 0)

/-- Split a day offset inside a 400-year cycle (0 ≤ d < 146097) into a
zero-based year-of-cycle and a zero-based day-of-year, by stripping
100-year, 4-year and 1-year subcycles; the subtracted division terms
clamp the 100-year and 1-year counts to at most 3, exactly as Go's
`absDate` clamps them so that the trailing leap day stays inside the
last year of a cycle. -/
def cycleSplit (d : Nat) : Nat × Nat :=
  let n100 := d / 36524 - d / 146096
  let d2 := d - 36524 * n100
  let n4 := d2 / 1461
  let d3 := d2 - 1461 * n4
  let n1 := d3 / 365 - d3 / 1460
  (100 * n100 + 4 * n4 + n1, d3 - 365 * n1)

/-- Convert days since 1970-01-01 to (year, zero-based day of year). -/
def yearYdayOfDays (z : Int) : Int × Nat :=
  let zabs := z + 719162
  let era := zabs / 146097
  let p := cycleSplit (zabs % 146097).toNat
  (400 * era + p.1 + 1, p.2)

/-- Cumulative days before month `m` (1-based) in a non-leap year. -/
def daysBeforeMonth (m : Nat) : Nat :=
  if m ≤ 1 then 0
  else if m = 2 then 31
  else if m = 3 then 59
  else if m = 4 then 90
  else if m = 5 then 120
  else if m = 6 then 151
  else if m = 7 then 181
  else if m = 8 then 212
  else if m = 9 then 243
  else if m = 10 then 273
  else if m = 11 then 304
  else if m = 12 then 334
  else 365

/-- Month and day (1-based) from a zero-based day of a non-leap year. -/
def monthDayTable (d : Nat) : Nat × Nat :=
  if d < 31 then (1, d + 1)
  else if d < 59 then (2, d - 30)
  else if d < 90 then (3, d - 58)
  else if d < 120 then (4, d - 89)
  else if d < 151 then (5, d - 119)
  else if d < 181 then (6, d - 150)
  else if d < 212 then (7, d - 180)
  else if d < 243 then (8, d - 211)
  else if d < 273 then (9, d - 242)
  else if d < 304 then (10, d - 272)
  else if d < 334 then (11, d - 303)
  else (12, d - 333)

/-- Month and day from a zero-based day of year, leap years handled as
in Go's `absDate`: day 59 of a leap year is February 29, and later
days are shifted down by one before the non-leap table lookup. -/
def monthDayOfYday (leap : Bool) (yday : Nat) : Nat × Nat :=
  if leap then
    if yday = 59 then (2, 29)
    else if 59 < yday then monthDayTable (yday - 1)
    else monthDayTable yday
  else monthDayTable yday

/-- Zero-based day of year from month and day, as in Go's date-to-days
direction: cumulative days before the month, plus one for leap years
past February. -/
def ydayOfMonthDay (leap : Bool) (m day : Nat) : Nat :=
  daysBeforeMonth m + (if leap ∧ 2 < m then 1 else 0) + day - 1

/-- Full civil date (year, month, day) from days since 1970-01-01. -/
def dateOfDays (z : Int) : Int × Nat × Nat :=
  let p := yearYdayOfDays z
  let md := monthDayOfYday (isLeapYear p.1) p.2
  (p.1, md.1, md.2)

/-- Days since 1970-01-01 from a civil date (year, month, day). -/
def daysOfDate (y : Int) (m day : Nat) : Int :=
  let y1 := y - 1
  365 * y1 + y1 / 4 - y1 / 100 + y1 / 400
    + (ydayOfMonthDay (isLeapYear y) m day : Int) - 719162

/-! ### Calendar correctness lemmas -/

/-- The leap year predicate, unfolded to a proposition. -/
theorem isLeapYear_iff (y : Int) :
    isLeapYear y = true ↔ (y % 4 = 0 ∧ (y % 100 ≠ 0 ∨ y % 400 = 0)) := by
  simp [isLeapYear, Bool.and_eq_true, Bool.or_eq_true, beq_iff_eq, bne_iff_ne]

/-- Names the intermediate stages of `cycleSplit` so later proofs can
reason about them as opaque variables. -/
theorem cycleSplit_exists (d : Nat) :
    ∃ n100 d2 n4 d3 n1,
      n100 = d / 36524 - d / 146096 ∧
      d2 = d - 36524 * n100 ∧
      n4 = d2 / 1461 ∧
      d3 = d2 - 1461 * n4 ∧
      n1 = d3 / 365 - d3 / 1460 ∧
      cycleSplit d = (100 * n100 + 4 * n4 + n1, d3 - 365 * n1) :=
  ⟨_, _, _, _, _, rfl, rfl, rfl, rfl, rfl, rfl⟩

/-- Cumulative-day formula for a year inside one 400-year cycle. -/
theorem yearFormula (n100 n4 n1 : Nat) (hb1 : n100 ≤ 3) (hb2 : n4 ≤ 24) (hb3 : n1 ≤ 3) :
    365 * (100 * n100 + 4 * n4 + n1) + (100 * n100 + 4 * n4 + n1) / 4
        - (100 * n100 + 4 * n4 + n1) / 100 + (100 * n100 + 4 * n4 + n1) / 400
      = 36524 * n100 + 1461 * n4 + 365 * n1 := by
  omega

/-- Core correctness of the cycle decomposition: January 1 of the
computed year-of-cycle plus the day of year recovers the input day,
the day of year is at most 365, the year-of-cycle is below 400, and
day 365 occurs only when the next year number satisfies the Gregorian
leap rule. -/
theorem cycleSplit_spec (d : Nat) (hd : d < 146097) :
    365 * (cycleSplit d).1 + (cycleSplit d).1 / 4 - (cycleSplit d).1 / 100
        + (cycleSplit d).1 / 400 + (cycleSplit d).2 = d
      ∧ (cycleSplit d).2 ≤ 365 ∧ (cycleSplit d).1 < 400
      ∧ ((cycleSplit d).2 = 365 →
          ((cycleSplit d).1 + 1) % 4 = 0 ∧
            (((cycleSplit d).1 + 1) % 100 ≠ 0 ∨ ((cycleSplit d).1 + 1) % 400 = 0)) := by
  obtain ⟨n100, d2, n4, d3, n1, h1, h2, h3, h4, h5, heq⟩ := cycleSplit_exists d
  rw [heq]
  simp only
  have hb : n100 ≤ 3 ∧ n4 ≤ 24 ∧ n1 ≤ 3 ∧ d2 ≤ 36524 ∧ d3 ≤ 1460 ∧
      36524 * n100 + 1461 * n4 + 365 * n1 + (d3 - 365 * n1) = d ∧
      d3 - 365 * n1 ≤ 365 := by
    omega
  obtain ⟨hb1, hb2, hb3, hb4, hb5, hb6, hb7⟩ := hb
  have hyf := yearFormula n100 n4 n1 hb1 hb2 hb3
  refine ⟨by omega, hb7, by omega, ?_⟩
  intro h365
  constructor
  · clear hyf hb6 hb7 hb4 hb5 h1 h2 h3 hd heq
    omega
  · by_cases h100 : (100 * n100 + 4 * n4 + n1 + 1) % 100 = 0
    · right
      clear hyf hb6 hb7 heq
      have hd3 : d3 = 1460 := by omega
      have hn1 : n1 = 3 := by omega
      have hn4 : n4 = 24 := by omega
      have hd2 : d2 = 36524 := by omega
      have hn100 : n100 = 3 := by omega
      omega
    · left
      exact h100

/-- Year/day-of-year decomposition is consistent: the cumulative day
formula at the computed year plus the day of year recovers the input,
the day of year is at most 365, and equals 365 only in leap years. -/
theorem yearYdayOfDays_spec (z : Int) :
    365 * ((yearYdayOfDays z).1 - 1) + ((yearYdayOfDays z).1 - 1) / 4
        - ((yearYdayOfDays z).1 - 1) / 100 + ((yearYdayOfDays z).1 - 1) / 400
        + (yearYdayOfDays z).2 = z + 719162
      ∧ (yearYdayOfDays z).2 ≤ 365
      ∧ ((yearYdayOfDays z).2 = 365 → isLeapYear (yearYdayOfDays z).1 = true) := by
  have hd : ((z + 719162) % 146097).toNat < 146097 := by omega
  have hcs := cycleSplit_spec ((z + 719162) % 146097).toNat hd
  rcases hpq : cycleSplit ((z + 719162) % 146097).toNat with ⟨y0, yd⟩
  rw [hpq] at hcs
  simp only at hcs
  obtain ⟨hrec, hydle, hy0lt, hleap⟩ := hcs
  have hyy : yearYdayOfDays z =
      (400 * ((z + 719162) / 146097) + (y0 : Int) + 1, yd) := by
    have hraw : yearYdayOfDays z =
        (400 * ((z + 719162) / 146097)
            + ((cycleSplit ((z + 719162) % 146097).toNat).1 : Int) + 1,
          (cycleSplit ((z + 719162) % 146097).toNat).2) := rfl
    rw [hraw, hpq]
  rw [hyy]
  simp only [Prod.fst, Prod.snd]
  rw [isLeapYear_iff]
  have hzd : z + 719162 = 146097 * ((z + 719162) / 146097) + (y0 : Int) * 365
      + (y0 / 4 : Nat) - (y0 / 100 : Nat) + (y0 / 400 : Nat) + yd := by
    clear hleap hpq hyy
    omega
  have e4 : (400 * ((z + 719162) / 146097) + (y0 : Int) + 1 - 1) / 4
      = 100 * ((z + 719162) / 146097) + ((y0 / 4 : Nat) : Int) := by
    clear hrec hzd hleap hpq hyy hydle
    omega
  have e100 : (400 * ((z + 719162) / 146097) + (y0 : Int) + 1 - 1) / 100
      = 4 * ((z + 719162) / 146097) + ((y0 / 100 : Nat) : Int) := by
    clear hrec hzd hleap hpq hyy hydle e4
    omega
  have e400 : (400 * ((z + 719162) / 146097) + (y0 : Int) + 1 - 1) / 400
      = ((z + 719162) / 146097) + ((y0 / 400 : Nat) : Int) := by
    clear hrec hzd hleap hpq hyy hydle e4 e100
    omega
  refine ⟨?_, hydle, ?_⟩
  · rw [e4, e100, e400]
    clear e4 e100 e400 hleap hpq hyy hrec
    omega
  · intro h365
    obtain ⟨hl4, hlor⟩ := hleap h365
    clear hrec hzd e4 e100 e400 hpq hyy
    refine ⟨by omega, ?_⟩
    rcases hlor with hl100 | hl400
    · left
      omega
    · right
      omega

/-- Boolean check used to certify the month/day table by evaluation. -/
def monthDayOk (leap : Bool) (yday : Nat) : Bool :=
  let md := monthDayOfYday leap yday
  (ydayOfMonthDay leap md.1 md.2 == yday) && (1 ≤ md.1 : Bool) && (md.1 ≤ 12 : Bool)
    && (1 ≤ md.2 : Bool) && (md.2 ≤ 31 : Bool)

set_option maxRecDepth 2000 in
/-- The month/day table is correct on every day of a leap year. -/
theorem monthDayOk_leap : ∀ yday, yday < 366 → monthDayOk true yday = true := by decide

set_option maxRecDepth 2000 in
/-- The month/day table is correct on every day of a non-leap year. -/
theorem monthDayOk_noleap : ∀ yday, yday < 365 → monthDayOk false yday = true := by decide

/-- Month/day extraction from a day of year inverts `ydayOfMonthDay`,
with months in 1..12 and days in 1..31. -/
theorem monthDayOfYday_spec (leap : Bool) (yday : Nat)
    (h : yday < 365 + (if leap then 1 else 0)) :
    ydayOfMonthDay leap (monthDayOfYday leap yday).1 (monthDayOfYday leap yday).2 = yday
      ∧ 1 ≤ (monthDayOfYday leap yday).1 ∧ (monthDayOfYday leap yday).1 ≤ 12
      ∧ 1 ≤ (monthDayOfYday leap yday).2 ∧ (monthDayOfYday leap yday).2 ≤ 31 := by
  have hok : monthDayOk leap yday = true := by
    cases leap with
    | true => exact monthDayOk_leap yday (by simp only [if_pos] at h; omega)
    | false => exact monthDayOk_noleap yday (by simpa using h)
  simp only [monthDayOk, Bool.and_eq_true, beq_iff_eq, decide_eq_true_eq] at hok
  tauto

/-- Round trip at the level of whole days: converting days since epoch
to a civil date and back is the identity, and the produced month and
day fields lie in their calendar ranges. -/
theorem daysOfDate_dateOfDays (z : Int) :
    daysOfDate (dateOfDays z).1 (dateOfDays z).2.1 (dateOfDays z).2.2 = z
      ∧ 1 ≤ (dateOfDays z).2.1 ∧ (dateOfDays z).2.1 ≤ 12
      ∧ 1 ≤ (dateOfDays z).2.2 ∧ (dateOfDays z).2.2 ≤ 31 := by
  obtain ⟨hrec, hle, hleap⟩ := yearYdayOfDays_spec z
  have hbound : (yearYdayOfDays z).2 < 365 +
      (if isLeapYear (yearYdayOfDays z).1 then 1 else 0) := by
    by_cases hl : isLeapYear (yearYdayOfDays z).1 = true
    · rw [if_pos hl]
      omega
    · rcases Nat.lt_or_ge (yearYdayOfDays z).2 365 with hc | hc
      · split_ifs <;> omega
      · exact absurd (hleap (by omega)) hl
  obtain ⟨hinv, hm1, hm2, hd1, hd2⟩ :=
    monthDayOfYday_spec (isLeapYear (yearYdayOfDays z).1) (yearYdayOfDays z).2 hbound
  have hdate : dateOfDays z = ((yearYdayOfDays z).1,
      (monthDayOfYday (isLeapYear (yearYdayOfDays z).1) (yearYdayOfDays z).2).1,
      (monthDayOfYday (isLeapYear (yearYdayOfDays z).1) (yearYdayOfDays z).2).2) := rfl
  rw [hdate]
  simp only
  refine ⟨?_, hm1, hm2, hd1, hd2⟩
  unfold daysOfDate
  simp only
  rw [hinv]
  omega

/-! ## Seconds-level civil time -/

/-- A broken-down UTC-offset-applied civil date-time. -/
structure DateTime where
  year : Int
  month : Nat
  day : Nat
  hour : Nat
  minute : Nat
  second : Nat
deriving DecidableEq

/-- Convert epoch seconds to a civil date-time. -/
def civilOfSecs (t : Int) : DateTime :=
  let d := dateOfDays (t / 86400)
  let rem := (t % 86400).toNat
  ⟨d.1, d.2.1, d.2.2, rem / 3600, rem % 3600 / 60, rem % 60⟩

/-- Convert civil date-time fields back to epoch seconds. -/
def secsOfDate (y : Int) (mo d hh mi ss : Nat) : Int :=
  86400 * daysOfDate y mo d + (3600 * hh + 60 * mi + ss : Nat)

/-- Seconds-level round trip: breaking epoch seconds into civil fields
and recombining is the identity, and every field is in range. -/
theorem secsOfDate_civilOfSecs (t : Int) :
    secsOfDate (civilOfSecs t).year (civilOfSecs t).month (civilOfSecs t).day
        (civilOfSecs t).hour (civilOfSecs t).minute (civilOfSecs t).second = t
      ∧ 1 ≤ (civilOfSecs t).month ∧ (civilOfSecs t).month ≤ 12
      ∧ 1 ≤ (civilOfSecs t).day ∧ (civilOfSecs t).day ≤ 31
      ∧ (civilOfSecs t).hour ≤ 23 ∧ (civilOfSecs t).minute ≤ 59
      ∧ (civilOfSecs t).second ≤ 59 := by
  obtain ⟨hrt, hm1, hm2, hd1, hd2⟩ := daysOfDate_dateOfDays (t / 86400)
  have hc : civilOfSecs t = ⟨(dateOfDays (t / 86400)).1, (dateOfDays (t / 86400)).2.1,
      (dateOfDays (t / 86400)).2.2, (t % 86400).toNat / 3600,
      (t % 86400).toNat % 3600 / 60, (t % 86400).toNat % 60⟩ := rfl
  rw [hc]
  simp only
  unfold secsOfDate
  rw [hrt]
  refine ⟨by omega, hm1, hm2, hd1, hd2, by omega, by omega, by omega⟩

/-! ## RFC3339 rendering

Modelled from the spec: Go's `time.Format` with the RFC3339 and
RFC3339Nano layouts renders zero-padded decimal fields, a fractional
part with trailing zeros removed (RFC3339Nano only, omitted when the
nanosecond field is zero), and a numeric ±hh:mm offset, with the
literal Z for offset zero. -/

/-- The decimal digit character for `n < 10`. -/
def digitChar (n : Nat) : Char := Char.ofNat (48 + n)

/-- Two-digit zero-padded decimal rendering. -/
def pad2 (n : Nat) : List Char := [digitChar (n / 10), digitChar (n % 10)]

/-- Four-digit zero-padded decimal rendering. -/
def pad4 (n : Nat) : List Char :=
  [digitChar (n / 1000 % 10), digitChar (n / 100 % 10), digitChar (n / 10 % 10),
    digitChar (n % 10)]

/-- Nine-digit zero-padded decimal rendering. -/
def pad9 (n : Nat) : List Char :=
  [digitChar (n / 100000000 % 10), digitChar (n / 10000000 % 10),
    digitChar (n / 1000000 % 10), digitChar (n / 100000 % 10),
    digitChar (n / 10000 % 10), digitChar (n / 1000 % 10),
    digitChar (n / 100 % 10), digitChar (n / 10 % 10), digitChar (n % 10)]

/-- Remove trailing zero characters. -/
def dropTrailingZeros (l : List Char) : List Char :=
  (l.reverse.dropWhile (fun c => c = '0')).reverse

/-- Fractional-second rendering of RFC3339Nano: empty when the
nanosecond count is zero, otherwise a dot and the nonzero digits. -/
def renderFrac (nanos : Nat) : List Char :=
  if nanos = 0 then [] else '.' :: dropTrailingZeros (pad9 nanos)

/-- Numeric offset rendering of the Z07:00 layout element. -/
def renderOffset (off : Int) : List Char :=
  if off = 0 then ['Z']
  else (if off < 0 then '-' else '+') ::
    (pad2 (off.natAbs / 3600) ++ ':' :: pad2 (off.natAbs % 3600 / 60))

/-- Render epoch seconds at a given UTC offset in RFC3339 shape, with
an optional fractional-second part. -/
def renderDateTime (t : Int) (withFrac : Bool) (nanos : Nat) (off : Int) : List Char :=
  let c := civilOfSecs (t + off)
  pad4 c.year.toNat ++ '-' :: pad2 c.month ++ '-' :: pad2 c.day
    ++ 'T' :: pad2 c.hour ++ ':' :: pad2 c.minute ++ ':' :: pad2 c.second
    ++ (if withFrac then renderFrac nanos else []) ++ renderOffset off

/-- Format epoch seconds using a Go layout string: the RFC3339Nano
layout renders fractional seconds, every other supported layout
renders plain RFC3339. -/
def formatWithLayout (layout : String) (t : Int) (nanos : Nat) (off : Int) : String :=
  String.mk (renderDateTime t (layout == rfc3339NanoLayout) nanos off)

/-! ## RFC3339 parsing

Modelled from the spec: Go's `time.Parse` scans the layout elements,
accepts an optional fractional-second part after the seconds element
even for layouts without one, validates field ranges, and applies the
numeric offset read from the value. -/

/-- Decimal value of a digit character. -/
def digitVal (c : Char) : Option Nat :=
  if 48 ≤ c.toNat ∧ c.toNat ≤ 57 then some (c.toNat - 48) else none

/-- Digit character test. -/
def isDigitChar (c : Char) : Bool := 48 ≤ c.toNat && c.toNat ≤ 57

/-- Read exactly two decimal digits. -/
def read2 : List Char → Option (Nat × List Char)
  | a :: b :: rest =>
    match digitVal a, digitVal b with
    | some x, some y => some (10 * x + y, rest)
    | _, _ => none
  | _ => none

/-- Read exactly four decimal digits. -/
def read4 : List Char → Option (Nat × List Char)
  | a :: b :: c :: d :: rest =>
    match digitVal a, digitVal b, digitVal c, digitVal d with
    | some w, some x, some y, some z => some (1000 * w + 100 * x + 10 * y + z, rest)
    | _, _, _, _ => none
  | _ => none

/-- Read one expected literal character. -/
def readLit (c : Char) : List Char → Option (List Char)
  | x :: rest => if x = c then some rest else none
  | [] => none

/-- Skip an optional fractional-second part: a dot followed by at
least one digit. -/
def readFrac : List Char → Option (List Char)
  | [] => some []
  | c :: rest =>
    if c = '.' then
      if rest.takeWhile isDigitChar = [] then none
      else some (rest.dropWhile isDigitChar)
    else some (c :: rest)

/-- Read a Z or ±hh:mm offset, returning the offset in seconds. -/
def readOffset : List Char → Option (Int × List Char)
  | [] => none
  | c :: rest =>
    if c = 'Z' then some (0, rest)
    else if c = '+' ∨ c = '-' then
      match read2 rest with
      | none => none
      | some (hh, r1) =>
        match readLit ':' r1 with
        | none => none
        | some r2 =>
          match read2 r2 with
          | none => none
          | some (mi, r3) =>
            let off : Int := 3600 * hh + 60 * mi
            some (if c = '-' then -off else off, r3)
    else none

/-- Parse an RFC3339 date-time string to epoch seconds. -/
def parseRFC3339 (s : List Char) : Option Int :=
  match read4 s with
  | none => none
  | some (y, r1) =>
    match readLit '-' r1 with
    | none => none
    | some r2 =>
      match read2 r2 with
      | none => none
      | some (mo, r3) =>
        match readLit '-' r3 with
        | none => none
        | some r4 =>
          match read2 r4 with
          | none => none
          | some (d, r5) =>
            match readLit 'T' r5 with
            | none => none
            | some r6 =>
              match read2 r6 with
              | none => none
              | some (hh, r7) =>
                match readLit ':' r7 with
                | none => none
                | some r8 =>
                  match read2 r8 with
                  | none => none
                  | some (mi, r9) =>
                    match readLit ':' r9 with
                    | none => none
                    | some r10 =>
                      match read2 r10 with
                      | none => none
                      | some (ss, r11) =>
                        match readFrac r11 with
                        | none => none
                        | some r12 =>
                          match readOffset r12 with
                          | none => none
                          | some (off, r13) =>
                            if r13 = [] ∧ 1 ≤ mo ∧ mo ≤ 12 ∧ 1 ≤ d ∧ d ≤ 31
                                ∧ hh ≤ 23 ∧ mi ≤ 59 ∧ ss ≤ 59 then
                              some (secsOfDate (y : Int) mo d hh mi ss - off)
                            else none

/-! ### Rendering/parsing round-trip lemmas -/

/-- Digit characters parse back to their value. -/
theorem digitVal_digitChar : ∀ n, n < 10 → digitVal (digitChar n) = some n := by decide

/-- Digit characters satisfy the digit test. -/
theorem isDigitChar_digitChar : ∀ n, n < 10 → isDigitChar (digitChar n) = true := by decide

/-- Only the zero digit renders as the character 0. -/
theorem digitChar_eq_zero : ∀ n, n < 10 → digitChar n = '0' → n = 0 := by decide

/-- Two-digit rendering parses back to the same value. -/
theorem read2_pad2 (n : Nat) (rest : List Char) (h : n < 100) :
    read2 (pad2 n ++ rest) = some (n, rest) := by
  have h1 : digitVal (digitChar (n / 10)) = some (n / 10) :=
    digitVal_digitChar _ (by omega)
  have h2 : digitVal (digitChar (n % 10)) = some (n % 10) :=
    digitVal_digitChar _ (by omega)
  simp only [pad2, List.cons_append, List.nil_append, read2, h1, h2,
    Option.some.injEq, Prod.mk.injEq]
  constructor
  · omega
  · trivial

/-- Four-digit rendering parses back to the same value. -/
theorem read4_pad4 (n : Nat) (rest : List Char) (h : n < 10000) :
    read4 (pad4 n ++ rest) = some (n, rest) := by
  have h1 : digitVal (digitChar (n / 1000 % 10)) = some (n / 1000 % 10) :=
    digitVal_digitChar _ (by omega)
  have h2 : digitVal (digitChar (n / 100 % 10)) = some (n / 100 % 10) :=
    digitVal_digitChar _ (by omega)
  have h3 : digitVal (digitChar (n / 10 % 10)) = some (n / 10 % 10) :=
    digitVal_digitChar _ (by omega)
  have h4 : digitVal (digitChar (n % 10)) = some (n % 10) :=
    digitVal_digitChar _ (by omega)
  simp only [pad4, List.cons_append, List.nil_append, read4, h1, h2, h3, h4,
    Option.some.injEq, Prod.mk.injEq]
  constructor
  · omega
  · trivial

/-- A literal consumes itself. -/
theorem readLit_cons (c : Char) (rest : List Char) : readLit c (c :: rest) = some rest := by
  simp [readLit]

/-- Rendered offsets parse back to the same offset, for minute-granular
offsets smaller than a day. -/
theorem readOffset_renderOffset (off : Int) (rest : List Char)
    (h60 : off % 60 = 0) (hlo : -86400 < off) (hhi : off < 86400) :
    readOffset (renderOffset off ++ rest) = some (off, rest) := by
  by_cases h0 : off = 0
  · subst h0
    simp [renderOffset, readOffset]
  · have hh : off.natAbs / 3600 < 100 := by omega
    have hm : off.natAbs % 3600 / 60 < 100 := by omega
    by_cases hneg : off < 0
    · have hro : renderOffset off ++ rest
          = '-' :: (pad2 (off.natAbs / 3600)
            ++ ':' :: pad2 (off.natAbs % 3600 / 60) ++ rest) := by
        simp [renderOffset, h0, hneg]
      rw [hro]
      simp only [readOffset, if_neg (by decide : ¬('-' : Char) = 'Z'),
        if_pos (Or.inr rfl)]
      rw [show pad2 (off.natAbs / 3600) ++ ':' :: pad2 (off.natAbs % 3600 / 60) ++ rest
          = pad2 (off.natAbs / 3600) ++ (':' :: (pad2 (off.natAbs % 3600 / 60) ++ rest))
          from by simp]
      rw [read2_pad2 _ _ hh]
      simp only [readLit_cons]
      rw [read2_pad2 _ _ hm]
      simp only [or_true, true_or, ite_true, if_true, Option.some.injEq,
        Prod.mk.injEq, eq_self_iff_true, and_true]
      omega
    · have hro : renderOffset off ++ rest
          = '+' :: (pad2 (off.natAbs / 3600)
            ++ ':' :: pad2 (off.natAbs % 3600 / 60) ++ rest) := by
        simp [renderOffset, h0, hneg]
      rw [hro]
      simp only [readOffset, if_neg (by decide : ¬('+' : Char) = 'Z'),
        if_pos (Or.inl rfl)]
      rw [show pad2 (off.natAbs / 3600) ++ ':' :: pad2 (off.natAbs % 3600 / 60) ++ rest
          = pad2 (off.natAbs / 3600) ++ (':' :: (pad2 (off.natAbs % 3600 / 60) ++ rest))
          from by simp]
      rw [read2_pad2 _ _ hh]
      simp only [readLit_cons]
      rw [read2_pad2 _ _ hm]
      simp only [or_true, true_or, ite_true, if_true, eq_self_iff_true, and_true]
      rw [if_neg (by decide : ¬('+' : Char) = '-')]
      simp only [Option.some.injEq, Prod.mk.injEq, eq_self_iff_true, and_true]
      omega

/-- Members of a dropWhile result are members of the list. -/
theorem mem_of_mem_dropWhile (p : Char → Bool) (l : List Char) (c : Char)
    (hc : c ∈ l.dropWhile p) : c ∈ l := by
  induction l with
  | nil => simpa using hc
  | cons a t ih =>
    cases hpa : p a with
    | true =>
      simp only [List.dropWhile, hpa] at hc
      exact List.mem_cons_of_mem a (ih hc)
    | false =>
      simpa only [List.dropWhile, hpa] using hc

/-- Members of `dropTrailingZeros l` are members of `l`. -/
theorem mem_of_mem_dropTrailingZeros (l : List Char) (c : Char)
    (hc : c ∈ dropTrailingZeros l) : c ∈ l := by
  unfold dropTrailingZeros at hc
  rw [List.mem_reverse] at hc
  have := mem_of_mem_dropWhile _ _ _ hc
  rwa [List.mem_reverse] at this

/-- Every character of `pad9 n` is a digit. -/
theorem pad9_digits (n : Nat) (c : Char) (hc : c ∈ pad9 n) : isDigitChar c = true := by
  simp only [pad9, List.mem_cons, List.not_mem_nil, or_false] at hc
  rcases hc with h | h | h | h | h | h | h | h | h <;>
    (subst h; exact isDigitChar_digitChar _ (by omega))

/-- A nonzero sub-second count keeps at least one digit after
trailing-zero removal. -/
theorem dropTrailingZeros_pad9_ne_nil (n : Nat) (hn : n ≠ 0) (hlt : n < 1000000000) :
    dropTrailingZeros (pad9 n) ≠ [] := by
  intro hnil
  unfold dropTrailingZeros at hnil
  rw [List.reverse_eq_nil_iff, List.dropWhile_eq_nil_iff] at hnil
  have hall : ∀ x ∈ pad9 n, x = '0' := by
    intro x hx
    have := hnil x (by rwa [List.mem_reverse])
    simpa using this
  simp only [pad9, List.mem_cons, List.not_mem_nil, or_false] at hall
  have e1 := digitChar_eq_zero (n / 100000000 % 10) (by omega) (hall _ (by tauto))
  have e2 := digitChar_eq_zero (n / 10000000 % 10) (by omega) (hall _ (by tauto))
  have e3 := digitChar_eq_zero (n / 1000000 % 10) (by omega) (hall _ (by tauto))
  have e4 := digitChar_eq_zero (n / 100000 % 10) (by omega) (hall _ (by tauto))
  have e5 := digitChar_eq_zero (n / 10000 % 10) (by omega) (hall _ (by tauto))
  have e6 := digitChar_eq_zero (n / 1000 % 10) (by omega) (hall _ (by tauto))
  have e7 := digitChar_eq_zero (n / 100 % 10) (by omega) (hall _ (by tauto))
  have e8 := digitChar_eq_zero (n / 10 % 10) (by omega) (hall _ (by tauto))
  have e9 := digitChar_eq_zero (n % 10) (by omega) (hall _ (by tauto))
  omega

/-- dropWhile over an all-true prefix reaches the unchanged suffix. -/
theorem dropWhile_append_all (p : Char → Bool) (l1 l2 : List Char)
    (h1 : ∀ c ∈ l1, p c = true) (h2 : l2.dropWhile p = l2) :
    (l1 ++ l2).dropWhile p = l2 := by
  induction l1 with
  | nil => simpa using h2
  | cons a t ih =>
    have ha : p a = true := h1 a (by simp)
    have ht : ∀ c ∈ t, p c = true := fun c hc => h1 c (by simp [hc])
    simpa [List.dropWhile, ha] using ih ht

/-- The rendered offset (with anything after it) starts with a
non-digit character other than a dot. -/
theorem renderOffset_shape (off : Int) (rest : List Char) :
    ∃ c l, renderOffset off ++ rest = c :: l ∧ isDigitChar c = false ∧ (c = '.') = False := by
  unfold renderOffset
  split_ifs with h1 h2
  · exact ⟨'Z', rest, rfl, by decide, by simp⟩
  · exact ⟨'-', _, rfl, by decide, by simp⟩
  · exact ⟨'+', _, rfl, by decide, by simp⟩

/-- readFrac leaves an offset-headed suffix unchanged. -/
theorem readFrac_renderOffset (off : Int) (rest : List Char) :
    readFrac (renderOffset off ++ rest) = some (renderOffset off ++ rest) := by
  obtain ⟨c, l, heq, hdig, hdot⟩ := renderOffset_shape off rest
  rw [heq]
  simp only [readFrac]
  rw [if_neg (by simpa using hdot)]

/-- readFrac consumes a rendered fractional part and stops at the
offset-headed suffix. -/
theorem readFrac_renderFrac (nanos : Nat) (off : Int) (rest : List Char)
    (hn : nanos ≠ 0) (hlt : nanos < 1000000000) :
    readFrac ('.' :: (dropTrailingZeros (pad9 nanos) ++ (renderOffset off ++ rest)))
      = some (renderOffset off ++ rest) := by
  obtain ⟨c0, l0, heq, hdig0, hdot0⟩ := renderOffset_shape off rest
  have hdigs : ∀ c ∈ dropTrailingZeros (pad9 nanos), isDigitChar c = true := by
    intro c hc
    exact pad9_digits nanos c (mem_of_mem_dropTrailingZeros _ _ hc)
  have hdrop2 : (renderOffset off ++ rest).dropWhile isDigitChar
      = renderOffset off ++ rest := by
    rw [heq]
    simp [List.dropWhile, hdig0]
  have hdrop : (dropTrailingZeros (pad9 nanos)
      ++ (renderOffset off ++ rest)).dropWhile isDigitChar = renderOffset off ++ rest :=
    dropWhile_append_all _ _ _ hdigs hdrop2
  have htake : (dropTrailingZeros (pad9 nanos)
      ++ (renderOffset off ++ rest)).takeWhile isDigitChar ≠ [] := by
    rcases hne : dropTrailingZeros (pad9 nanos) with _ | ⟨a, t⟩
    · exact absurd hne (dropTrailingZeros_pad9_ne_nil nanos hn hlt)
    · have ha : isDigitChar a = true := by
        apply hdigs
        rw [hne]
        simp
      simp [List.takeWhile, ha]
  simp only [readFrac, if_pos rfl, hdrop]
  rw [if_neg htake]
  simp

/-- Full format/parse round trip: rendering epoch seconds at a
minute-granular offset smaller than a day, with or without fractional
seconds, parses back to the same epoch second, provided the rendered
year has four digits. -/
theorem parseRFC3339_renderDateTime (t off : Int) (nanos : Nat) (w : Bool)
    (h60 : off % 60 = 0) (hlo : -86400 < off) (hhi : off < 86400)
    (hnan : nanos < 1000000000)
    (hy0 : 0 ≤ (civilOfSecs (t + off)).year)
    (hy9 : (civilOfSecs (t + off)).year < 10000) :
    parseRFC3339 (renderDateTime t w nanos off) = some t := by
  obtain ⟨hsecs, hm1, hm2, hd1, hd2, hbh, hbmi, hbss⟩ := secsOfDate_civilOfSecs (t + off)
  have hy4 : (civilOfSecs (t + off)).year.toNat < 10000 := by omega
  have ey : ∀ rest, read4 (pad4 (civilOfSecs (t + off)).year.toNat ++ rest)
      = some ((civilOfSecs (t + off)).year.toNat, rest) :=
    fun rest => read4_pad4 _ rest hy4
  have emo : ∀ rest, read2 (pad2 (civilOfSecs (t + off)).month ++ rest)
      = some ((civilOfSecs (t + off)).month, rest) :=
    fun rest => read2_pad2 _ rest (by omega)
  have eda : ∀ rest, read2 (pad2 (civilOfSecs (t + off)).day ++ rest)
      = some ((civilOfSecs (t + off)).day, rest) :=
    fun rest => read2_pad2 _ rest (by omega)
  have eho : ∀ rest, read2 (pad2 (civilOfSecs (t + off)).hour ++ rest)
      = some ((civilOfSecs (t + off)).hour, rest) :=
    fun rest => read2_pad2 _ rest (by omega)
  have emi : ∀ rest, read2 (pad2 (civilOfSecs (t + off)).minute ++ rest)
      = some ((civilOfSecs (t + off)).minute, rest) :=
    fun rest => read2_pad2 _ rest (by omega)
  have ese : ∀ rest, read2 (pad2 (civilOfSecs (t + off)).second ++ rest)
      = some ((civilOfSecs (t + off)).second, rest) :=
    fun rest => read2_pad2 _ rest (by omega)
  have hfrac : readFrac ((if w then renderFrac nanos else []) ++ renderOffset off)
      = some (renderOffset off) := by
    cases w with
    | false =>
      simpa using readFrac_renderOffset off []
    | true =>
      by_cases hn0 : nanos = 0
      · subst hn0
        simpa [renderFrac] using readFrac_renderOffset off []
      · have hrf : renderFrac nanos = '.' :: dropTrailingZeros (pad9 nanos) := by
          simp [renderFrac, hn0]
        rw [if_pos rfl, hrf]
        have := readFrac_renderFrac nanos off [] hn0 hnan
        simpa using this
  have hoff : readOffset (renderOffset off) = some (off, []) := by
    simpa using readOffset_renderOffset off [] h60 hlo hhi
  rw [show renderDateTime t w nanos off
      = pad4 (civilOfSecs (t + off)).year.toNat
        ++ '-' :: pad2 (civilOfSecs (t + off)).month
        ++ '-' :: pad2 (civilOfSecs (t + off)).day
        ++ 'T' :: pad2 (civilOfSecs (t + off)).hour
        ++ ':' :: pad2 (civilOfSecs (t + off)).minute
        ++ ':' :: pad2 (civilOfSecs (t + off)).second
        ++ (if w then renderFrac nanos else []) ++ renderOffset off from rfl]
  simp only [parseRFC3339, List.append_assoc, List.cons_append, ey, readLit_cons,
    emo, eda, eho, emi, ese, hfrac, hoff]
  rw [if_pos ⟨trivial, hm1, hm2, hd1, hd2, by omega, by omega, by omega⟩]
  rw [Int.toNat_of_nonneg hy0, hsecs]
  simp only [Option.some.injEq]
  omega

/-! ## Time service data model

Input and result record types are embedded from
src/internal/time/types.go.  The timezone database and the service
operations are modelled from the spec: the service resolves IANA
names against the host timezone database and delegates conversions to
the calendar routines above. -/

/-- The three error kinds of the error taxonomy (tech_context.md:
ErrInvalidTimezone, ErrInvalidFormat, ErrParseFailure). -/
inductive TimeError where
  | invalidTimezone
  | invalidFormat
  | parseFailure
deriving DecidableEq

/-- Modelled from the spec: a resolved timezone gives, per instant,
the UTC offset in seconds, an abbreviation, whether daylight saving is
in effect, and the active-or-next daylight-saving period. -/
structure DSTInfo where
  dstStart : Int
  dstEnd : Int
  saving : Int
deriving DecidableEq

/-- Modelled from the spec: behaviour of one IANA timezone. -/
structure Zone where
  offsetAt : Int → Int
  abbrevAt : Int → String
  isDSTAt : Int → Bool
  dstAt : Int → Option DSTInfo

/-- Modelled from the spec: the host's IANA timezone database, mapping
names to timezones; unresolvable names map to none. -/
def TZDatabase : Type := String → Option Zone

/-- Embeds `GetTimeInput` (types.go lines 82-85). -/
structure GetTimeInput where
  timezone : String
  format : String
deriving DecidableEq

/-- Embeds `GetTimeResult` (types.go lines 96-101). -/
structure GetTimeResult where
  formattedTime : String
  timezone : String
  format : String
  unixTimestamp : Int
deriving DecidableEq

/-- Embeds the `Timestamp interface\x7b\x7d` field of `FormatTimeInput`:
a Unix timestamp number or a date-time string. -/
inductive TimestampValue where
  | num : Int → TimestampValue
  | str : String → TimestampValue
deriving DecidableEq

/-- Embeds `FormatTimeInput` (types.go lines 75-79). -/
structure FormatTimeInput where
  timestamp : TimestampValue
  format : String
  timezone : String
deriving DecidableEq

/-- Embeds `FormatTimeResult` (types.go lines 104-109). -/
structure FormatTimeResult where
  formattedTime : String
  timezone : String
  format : String
  unixTimestamp : Int
deriving DecidableEq

/-- Embeds `ParseTimeInput` (types.go lines 68-72). -/
structure ParseTimeInput where
  timeString : String
  format : String
  timezone : String
deriving DecidableEq

/-- Embeds `ParseTimeResult` (types.go lines 112-117). -/
structure ParseTimeResult where
  unixTimestamp : Int
  rfc3339 : String
  timezone : String
  isDST : Bool
deriving DecidableEq

/-- Embeds `TimezoneInfoInput` (types.go lines 88-91), with the
reference instant as epoch seconds. -/
structure TimezoneInfoInput where
  timezone : String
  referenceTime : Int
deriving DecidableEq

/-- Embeds `TimezoneInfo` (types.go lines 8-16), dropping the
deprecated DSTTransition compatibility field. -/
structure TimezoneInfo where
  name : String
  abbreviation : String
  offset : String
  offsetSeconds : Int
  isDST : Bool
  dst : Option DSTInfo
deriving DecidableEq

/-! ## The four time operations

Modelled from the spec (section 4.1): each operation resolves its
timezone against the database, validates the format token where one is
required, and delegates to the calendar/rendering routines. -/

/-- Modelled from the spec: parsing with any supported layout.  Both
layouts produced by `GetFormatLayout` are RFC3339-shaped, and Go's
`time.Parse` accepts an optional fractional-second part for either, so
every supported layout parses the same value language. -/
def parseWithLayout (layout : String) (s : List Char) : Option Int :=
  parseRFC3339 s

/-- Modelled from the spec: with no format given, each supported
format is tried in a fixed priority order until one succeeds. -/
def autoDetectParse (supported : List String) (s : List Char) : Option Int :=
  match supported with
  | [] => none
  | f :: rest =>
    match parseWithLayout (GetFormatLayout f) s with
    | some t => some t
    | none => autoDetectParse rest s

/-- The supported-format list of the default configuration
(tech_context.md example YAML config). -/
def defaultSupportedFormats : List String :=
  ["RFC3339", "RFC3339Nano", "Unix", "UnixMilli", "UnixMicro", "UnixNano"]

/-- Modelled from the spec: GetCurrentTime resolves the timezone
(default: the configured fallback), failing with InvalidTimezone,
checks the format token (default: the configured default format),
failing with InvalidFormat, and returns the formatted current time
with raw epoch seconds, resolved zone and format used. -/
def GetCurrentTime (db : TZDatabase) (defaultTZ defaultFormat : String)
    (now : Int) (nowNanos : Nat) (input : GetTimeInput) :
    Except TimeError GetTimeResult :=
  let tz := if input.timezone = "" then defaultTZ else input.timezone
  match db tz with
  | none => .error .invalidTimezone
  | some zone =>
    let fmt := if input.format = "" then defaultFormat else input.format
    if IsValidFormat fmt then
      .ok { formattedTime := formatWithLayout (GetFormatLayout fmt) now nowNanos
              (zone.offsetAt now),
            timezone := tz, format := fmt, unixTimestamp := now }
    else .error .invalidFormat

/-- Modelled from the spec: ParseTime resolves the timezone (default
UTC), parses strictly against the given format's layout when a format
is given and otherwise auto-detects in priority order, failing with
ParseFailure when nothing matches, and reports daylight-saving status
of the instant in the resolved zone. -/
def ParseTime (db : TZDatabase) (supported : List String)
    (input : ParseTimeInput) : Except TimeError ParseTimeResult :=
  let tz := if input.timezone = "" then "UTC" else input.timezone
  match db tz with
  | none => .error .invalidTimezone
  | some zone =>
    let parsed :=
      if input.format = "" then autoDetectParse supported input.timeString.data
      else parseWithLayout (GetFormatLayout input.format) input.timeString.data
    match parsed with
    | none => .error .parseFailure
    | some t =>
      .ok { unixTimestamp := t,
            rfc3339 := formatWithLayout rfc3339Layout t 0 (zone.offsetAt t),
            timezone := tz, isDST := zone.isDSTAt t }

/-- Modelled from the spec: FormatTime resolves the timezone (default
UTC), validates the requested format, accepts the timestamp as an
epoch number or as a string parsed against the accepted formats
(failing with ParseFailure), and renders the instant in the requested
timezone and format. -/
def FormatTime (db : TZDatabase) (supported : List String)
    (input : FormatTimeInput) : Except TimeError FormatTimeResult :=
  let tz := if input.timezone = "" then "UTC" else input.timezone
  match db tz with
  | none => .error .invalidTimezone
  | some zone =>
    if IsValidFormat input.format then
      match
        (match input.timestamp with
         | .num n => some n
         | .str str => autoDetectParse supported str.data) with
      | none => .error .parseFailure
      | some t =>
        .ok { formattedTime := formatWithLayout (GetFormatLayout input.format) t 0
                (zone.offsetAt t),
              timezone := tz, format := input.format, unixTimestamp := t }
    else .error .invalidFormat

/-- Always-signed ±hh:mm offset rendering used by timezone info. -/
def renderInfoOffset (off : Int) : String :=
  String.mk ((if off < 0 then '-' else '+') ::
    (pad2 (off.natAbs / 3600) ++ ':' :: pad2 (off.natAbs % 3600 / 60)))

/-- Modelled from the spec: GetTimezoneInfo resolves the zone, failing
with InvalidTimezone, and reports the UTC offset, abbreviation,
daylight-saving status at the reference instant, and the bounds and
offset delta of the active or next saving period when one exists. -/
def GetTimezoneInfo (db : TZDatabase) (input : TimezoneInfoInput) :
    Except TimeError TimezoneInfo :=
  match db input.timezone with
  | none => .error .invalidTimezone
  | some zone =>
    let off := zone.offsetAt input.referenceTime
    .ok { name := input.timezone,
          abbreviation := zone.abbrevAt input.referenceTime,
          offset := renderInfoOffset off,
          offsetSeconds := off,
          isDST := zone.isDSTAt input.referenceTime,
          dst := zone.dstAt input.referenceTime }

/-! ## A concrete fragment of the IANA database

Modelled from the spec glossary: the IANA timezone database is "the
standard catalog of named timezones with historical and future
UTC-offset rules".  The fragment below carries UTC and
America/New_York with the 2024-2025 daylight-saving rules (EST -05:00,
EDT -04:00; 2024: Mar 10 07:00 UTC to Nov 3 06:00 UTC; 2025: Mar 9
07:00 UTC to Nov 2 06:00 UTC). -/

/-- The UTC zone: offset 0, no daylight saving. -/
def utcZone : Zone :=
  { offsetAt := fun _ => 0
    abbrevAt := fun _ => "UTC"
    isDSTAt := fun _ => false
    dstAt := fun _ => none }

/-- Whether an instant falls in the modelled 2024/2025 daylight-saving
periods of America/New_York. -/
def nyIsDST (t : Int) : Bool :=
  (1710054000 ≤ t ∧ t < 1730613600) ∨ (1741503600 ≤ t ∧ t < 1762063200)

/-- America/New_York with its 2024-2025 rules. -/
def nyZone : Zone :=
  { offsetAt := fun t => if nyIsDST t then -14400 else -18000
    abbrevAt := fun t => if nyIsDST t then "EDT" else "EST"
    isDSTAt := fun t => nyIsDST t
    dstAt := fun t =>
      if t < 1730613600 then some ⟨1710054000, 1730613600, 3600⟩
      else if t < 1762063200 then some ⟨1741503600, 1762063200, 3600⟩
      else none }

/-- The modelled database fragment. -/
def theDB : TZDatabase := fun name =>
  if name = "UTC" then some utcZone
  else if name = "America/New_York" then some nyZone
  else none

/-! ## MCP tool handlers

Embedded from the tools package (registerGetTimeTool and friends):
each handler calls its service operation once; on error it returns a
nil content, the zero-valued result record and the error unchanged; on
success it returns a text content, the result and no error. -/

/-- The triple returned by an MCP tool handler: optional text content,
result record, optional error. -/
structure ToolOutcome (R : Type) where
  content : Option String
  result : R
  err : Option TimeError
deriving DecidableEq

/-- Zero value of `GetTimeResult` (Go `timeservice.GetTimeResult\x7b\x7d`). -/
def zeroGetTimeResult : GetTimeResult := ⟨"", "", "", 0⟩

/-- Zero value of `FormatTimeResult`. -/
def zeroFormatTimeResult : FormatTimeResult := ⟨"", "", "", 0⟩

/-- Zero value of `ParseTimeResult`. -/
def zeroParseTimeResult : ParseTimeResult := ⟨0, "", "", false⟩

/-- Zero value of `TimezoneInfo`. -/
def zeroTimezoneInfo : TimezoneInfo := ⟨"", "", "", 0, false, none⟩

/-- Bool rendering of Go's %t verb. -/
def boolText (b : Bool) : String := if b then "true" else "false"

/-- Rendering of the original timestamp input by Go's %s verb. -/
def timestampText : TimestampValue → String
  | .num n => toString n
  | .str str => str

/-- Text content of a successful get_time call. -/
def getTimeText (r : GetTimeResult) : String :=
  "Current time: " ++ r.formattedTime ++ "\nTimezone: " ++ r.timezone
    ++ "\nFormat: " ++ r.format

/-- Embeds the get_time handler body (registerGetTimeTool). -/
def getTimeToolHandler (svc : Except TimeError GetTimeResult) :
    ToolOutcome GetTimeResult :=
  match svc with
  | .error e => ⟨none, zeroGetTimeResult, some e⟩
  | .ok r => ⟨some (getTimeText r), r, none⟩

/-- Text content of a successful format_time call. -/
def formatTimeText (input : FormatTimeInput) (r : FormatTimeResult) : String :=
  "Formatted time: " ++ r.formattedTime ++ "\nOriginal: " ++ timestampText input.timestamp
    ++ "\nTimezone: " ++ r.timezone ++ "\nFormat: " ++ r.format

/-- Embeds the format_time handler body (registerFormatTimeTool). -/
def formatTimeToolHandler (input : FormatTimeInput)
    (svc : Except TimeError FormatTimeResult) : ToolOutcome FormatTimeResult :=
  match svc with
  | .error e => ⟨none, zeroFormatTimeResult, some e⟩
  | .ok r => ⟨some (formatTimeText input r), r, none⟩

/-- Text content of a successful parse_time call. -/
def parseTimeText (r : ParseTimeResult) : String :=
  "Parsed time:\n- Unix timestamp: " ++ toString r.unixTimestamp
    ++ "\n- RFC3339: " ++ r.rfc3339 ++ "\n- Timezone: " ++ r.timezone
    ++ "\n- Is DST: " ++ boolText r.isDST

/-- Embeds the parse_time handler body (registerParseTimeTool). -/
def parseTimeToolHandler (svc : Except TimeError ParseTimeResult) :
    ToolOutcome ParseTimeResult :=
  match svc with
  | .error e => ⟨none, zeroParseTimeResult, some e⟩
  | .ok r => ⟨some (parseTimeText r), r, none⟩

/-- Rendering of a Go `time.Duration` of whole nonnegative seconds. -/
def durationText (n : Int) : String :=
  toString (n / 3600) ++ "h" ++ toString (n % 3600 / 60) ++ "m"
    ++ toString (n % 60) ++ "s"

/-- Text content of a successful timezone_info call. -/
def timezoneInfoText (r : TimezoneInfo) : String :=
  let dstInfo :=
    match r.dst with
    | none => "No DST transitions"
    | some p =>
      "DST: " ++ formatWithLayout rfc3339Layout p.dstStart 0 0 ++ " to "
        ++ formatWithLayout rfc3339Layout p.dstEnd 0 0
        ++ " (saving " ++ durationText p.saving ++ ")"
  "Timezone: " ++ r.name ++ "\nAbbreviation: " ++ r.abbreviation
    ++ "\nOffset: " ++ r.offset ++ "\nCurrent DST: " ++ boolText r.isDST
    ++ "\n" ++ dstInfo

/-- Embeds the timezone_info handler body (registerTimezoneInfoTool). -/
def timezoneInfoToolHandler (svc : Except TimeError TimezoneInfo) :
    ToolOutcome TimezoneInfo :=
  match svc with
  | .error e => ⟨none, zeroTimezoneInfo, some e⟩
  | .ok r => ⟨some (timezoneInfoText r), r, none⟩

/-! ## The request-processing surface

One request to any of the four tools, together with the call instant
where the operation reads the clock.  Processing a request list is a
pure map: the handlers keep no cross-request state (the Go handlers
close only over the immutable service and observability objects). -/

/-- One tool request with its call-time inputs. -/
inductive ToolRequest where
  | getTime : Int → Nat → GetTimeInput → ToolRequest
  | formatTime : FormatTimeInput → ToolRequest
  | parseTime : ParseTimeInput → ToolRequest
  | timezoneInfo : TimezoneInfoInput → ToolRequest
deriving DecidableEq

/-- One tool response. -/
inductive ToolResponse where
  | getTime : ToolOutcome GetTimeResult → ToolResponse
  | formatTime : ToolOutcome FormatTimeResult → ToolResponse
  | parseTime : ToolOutcome ParseTimeResult → ToolResponse
  | timezoneInfo : ToolOutcome TimezoneInfo → ToolResponse
deriving DecidableEq

/-- Dispatch one request to its tool handler. -/
def processRequest (db : TZDatabase) (defaultTZ defaultFormat : String)
    (supported : List String) : ToolRequest → ToolResponse
  | .getTime now nanos input =>
    .getTime (getTimeToolHandler (GetCurrentTime db defaultTZ defaultFormat now nanos input))
  | .formatTime input =>
    .formatTime (formatTimeToolHandler input (FormatTime db supported input))
  | .parseTime input =>
    .parseTime (parseTimeToolHandler (ParseTime db supported input))
  | .timezoneInfo input =>
    .timezoneInfo (timezoneInfoToolHandler (GetTimezoneInfo db input))

/-- Process a whole request history in order. -/
def serverTrace (db : TZDatabase) (defaultTZ defaultFormat : String)
    (supported : List String) (reqs : List ToolRequest) : List ToolResponse :=
  reqs.map (processRequest db defaultTZ defaultFormat supported)

/-! ## Health endpoint

Embedded from createHealthHandler (src/internal/server/server.go lines
88-95): status 200, JSON content type, and a body interpolating the
server name, version and the current UTC time in RFC3339. -/

/-- An HTTP response of the health endpoint. -/
structure HealthResponse where
  statusCode : Nat
  contentType : String
  body : String
deriving DecidableEq

/-- The health document body for given identity fields and rendered
timestamp. -/
def healthBody (serverName serverVersion timestamp : String) : String :=
  "\x7b\"status\":\"healthy\",\"service\":\"" ++ serverName
    ++ "\",\"version\":\"" ++ serverVersion ++ "\",\"timestamp\":\""
    ++ timestamp ++ "\"\x7d"

/-- Embeds `createHealthHandler`: the response written for a request
arriving when the clock reads `now`; the timestamp field renders the
call time in UTC RFC3339. -/
def createHealthHandler (serverName serverVersion : String) (now : Int) :
    HealthResponse :=
  { statusCode := 200
    contentType := "application/json"
    body := healthBody serverName serverVersion
      (formatWithLayout rfc3339Layout now 0 0) }

/-- The health body determines and is determined by its timestamp
field. -/
theorem healthBody_inj (n v a b : String) :
    healthBody n v a = healthBody n v b ↔ a = b := by
  constructor
  · intro h
    have hd := congrArg String.data h
    simp only [healthBody, String.data_append, List.append_assoc] at hd
    have h1 := List.append_cancel_left hd
    have h2 := List.append_cancel_left h1
    have h3 := List.append_cancel_left h2
    have h4 := List.append_cancel_left h3
    have h5 := List.append_cancel_left h4
    have h6 := List.append_cancel_right h5
    exact congrArg String.mk h6
  · intro h
    rw [h]

/-! ## Claim theorems -/

/-- C1: for every timezone name resolving in the database and every
supported format, the formatted string returned by GetCurrentTime
parses back through ParseTime with the same format and timezone to the
same epoch second as the returned unix_timestamp.  Side conditions:
the zone offset at the call instant is minute-granular and smaller
than a day, the nanosecond part is in range, and the rendered year has
four digits. -/
theorem claim_C1 (db : TZDatabase) (defaultTZ defaultFormat : String) (Z F : String)
    (zone : Zone) (now : Int) (nanos : Nat) (supported : List String)
    (hdb : db Z = some zone) (hZ : Z ≠ "") (hF : IsValidFormat F = true)
    (hoff60 : zone.offsetAt now % 60 = 0) (hofflo : -86400 < zone.offsetAt now)
    (hoffhi : zone.offsetAt now < 86400) (hnan : nanos < 1000000000)
    (hy0 : 0 ≤ (civilOfSecs (now + zone.offsetAt now)).year)
    (hy9 : (civilOfSecs (now + zone.offsetAt now)).year < 10000) :
    ∃ r : GetTimeResult,
      GetCurrentTime db defaultTZ defaultFormat now nanos ⟨Z, F⟩ = .ok r
        ∧ r.unixTimestamp = now
        ∧ ∃ p : ParseTimeResult,
            ParseTime db supported ⟨r.formattedTime, F, Z⟩ = .ok p
              ∧ p.unixTimestamp = r.unixTimestamp := by
  have hFne : F ≠ "" := by
    intro h
    rw [h] at hF
    exact absurd hF (by decide)
  have hget : GetCurrentTime db defaultTZ defaultFormat now nanos ⟨Z, F⟩ = .ok
      { formattedTime := formatWithLayout (GetFormatLayout F) now nanos (zone.offsetAt now),
        timezone := Z, format := F, unixTimestamp := now } := by
    simp [GetCurrentTime, hZ, hFne, hdb, hF]
  have hparse := parseRFC3339_renderDateTime now (zone.offsetAt now) nanos
    (GetFormatLayout F == rfc3339NanoLayout) hoff60 hofflo hoffhi hnan hy0 hy9
  have hpt : ParseTime db supported
      ⟨formatWithLayout (GetFormatLayout F) now nanos (zone.offsetAt now), F, Z⟩
      = .ok { unixTimestamp := now,
              rfc3339 := formatWithLayout rfc3339Layout now 0 (zone.offsetAt now),
              timezone := Z, isDST := zone.isDSTAt now } := by
    simp [ParseTime, hZ, hFne, hdb, parseWithLayout, formatWithLayout, hparse]
  exact ⟨_, hget, rfl, _, hpt, rfl⟩

/-- C1 witness: the round trip at the UTC zone, format RFC3339, epoch
second 0. -/
theorem claim_C1_witness :
    theDB "UTC" = some utcZone
      ∧ ("UTC" : String) ≠ ""
      ∧ IsValidFormat "RFC3339" = true
      ∧ utcZone.offsetAt 0 % 60 = 0
      ∧ -86400 < utcZone.offsetAt 0
      ∧ utcZone.offsetAt 0 < 86400
      ∧ (0 : Nat) < 1000000000
      ∧ 0 ≤ (civilOfSecs ((0 : Int) + utcZone.offsetAt 0)).year
      ∧ (civilOfSecs ((0 : Int) + utcZone.offsetAt 0)).year < 10000
      ∧ ∃ r : GetTimeResult,
          GetCurrentTime theDB "UTC" "RFC3339" 0 0 ⟨"UTC", "RFC3339"⟩ = .ok r
            ∧ r.unixTimestamp = 0
            ∧ ∃ p : ParseTimeResult,
                ParseTime theDB defaultSupportedFormats ⟨r.formattedTime, "RFC3339", "UTC"⟩
                    = .ok p
                  ∧ p.unixTimestamp = r.unixTimestamp :=
  ⟨rfl, by decide, by decide, by decide, by decide, by decide, by decide, by decide,
    by decide,
    claim_C1 theDB "UTC" "RFC3339" "UTC" "RFC3339" utcZone 0 0 defaultSupportedFormats
      rfl (by decide) (by decide) (by decide) (by decide) (by decide) (by decide)
      (by decide) (by decide)⟩

/-- C2: a timezone name that does not resolve in the database makes
all four operations fail with InvalidTimezone. -/
theorem claim_C2 (db : TZDatabase) (name : String) (h : db name = none) (hne : name ≠ "")
    (dtz dfmt : String) (now : Int) (nanos : Nat) (gfmt : String) (ts : TimestampValue)
    (ffmt pstr pfmt : String) (supported : List String) (ref : Int) :
    GetCurrentTime db dtz dfmt now nanos ⟨name, gfmt⟩ = .error .invalidTimezone
      ∧ FormatTime db supported ⟨ts, ffmt, name⟩ = .error .invalidTimezone
      ∧ ParseTime db supported ⟨pstr, pfmt, name⟩ = .error .invalidTimezone
      ∧ GetTimezoneInfo db ⟨name, ref⟩ = .error .invalidTimezone := by
  refine ⟨?_, ?_, ?_, ?_⟩ <;>
    simp [GetCurrentTime, FormatTime, ParseTime, GetTimezoneInfo, hne, h]

/-- C2 witness: the unresolvable name Nowhere/Place fails all four
operations with InvalidTimezone. -/
theorem claim_C2_witness :
    theDB "Nowhere/Place" = none
      ∧ ("Nowhere/Place" : String) ≠ ""
      ∧ (GetCurrentTime theDB "UTC" "RFC3339" 0 0 ⟨"Nowhere/Place", "RFC3339"⟩
            = .error .invalidTimezone
          ∧ FormatTime theDB defaultSupportedFormats
              ⟨.num 0, "RFC3339", "Nowhere/Place"⟩ = .error .invalidTimezone
          ∧ ParseTime theDB defaultSupportedFormats
              ⟨"2024-07-04T12:00:00Z", "RFC3339", "Nowhere/Place"⟩
              = .error .invalidTimezone
          ∧ GetTimezoneInfo theDB ⟨"Nowhere/Place", 0⟩ = .error .invalidTimezone) :=
  ⟨rfl, by decide,
    claim_C2 theDB "Nowhere/Place" rfl (by decide) "UTC" "RFC3339" 0 0 "RFC3339"
      (.num 0) "RFC3339" "2024-07-04T12:00:00Z" "RFC3339" defaultSupportedFormats 0⟩

/-- C3: a nonempty format token outside the enumerated set makes
get_time and format_time fail with InvalidFormat (on a resolvable
timezone). -/
theorem claim_C3 (db : TZDatabase) (tzname : String) (zone : Zone)
    (hsome : db tzname = some zone) (hne : tzname ≠ "") (fmt : String)
    (hvf : IsValidFormat fmt = false) (hfne : fmt ≠ "")
    (dtz dfmt : String) (now : Int) (nanos : Nat) (supported : List String)
    (ts : TimestampValue) :
    GetCurrentTime db dtz dfmt now nanos ⟨tzname, fmt⟩ = .error .invalidFormat
      ∧ FormatTime db supported ⟨ts, fmt, tzname⟩ = .error .invalidFormat := by
  refine ⟨?_, ?_⟩ <;>
    simp [GetCurrentTime, FormatTime, hne, hfne, hsome, hvf]

/-- C3 witness: the unrecognized token ISO8601 fails get_time and
format_time with InvalidFormat. -/
theorem claim_C3_witness :
    theDB "UTC" = some utcZone
      ∧ IsValidFormat "ISO8601" = false
      ∧ ("ISO8601" : String) ≠ ""
      ∧ (GetCurrentTime theDB "UTC" "RFC3339" 0 0 ⟨"UTC", "ISO8601"⟩
            = .error .invalidFormat
          ∧ FormatTime theDB defaultSupportedFormats ⟨.num 0, "ISO8601", "UTC"⟩
            = .error .invalidFormat) :=
  ⟨rfl, by decide, by decide,
    claim_C3 theDB "UTC" utcZone rfl (by decide) "ISO8601" (by decide) (by decide)
      "UTC" "RFC3339" 0 0 defaultSupportedFormats (.num 0)⟩

/-- C4: FormatTime on unix timestamp 0 with format RFC3339 and
timezone UTC returns the formatted string 1970-01-01T00:00:00Z. -/
theorem claim_C4 : FormatTime theDB defaultSupportedFormats
    ⟨.num 0, "RFC3339", "UTC"⟩
    = .ok ⟨"1970-01-01T00:00:00Z", "UTC", "RFC3339", 0⟩ := by rfl

/-- C5: ParseTime on 2024-07-04T12:00:00Z with no format and no
timezone auto-detects RFC3339 (the first supported format tried) and
returns unix_timestamp 1720094400 with is_dst false. -/
theorem claim_C5 : ParseTime theDB defaultSupportedFormats
    ⟨"2024-07-04T12:00:00Z", "", ""⟩
    = .ok ⟨1720094400, "2024-07-04T12:00:00Z", "UTC", false⟩ := by rfl

/-- C6: GetTimezoneInfo for America/New_York at reference instant
2024-01-15T00:00:00Z (epoch 1705276800) returns offset -05:00, is_dst
false, and a DST period whose start instant falls in March 2024 and
whose end instant falls in November 2024. -/
theorem claim_C6 : GetTimezoneInfo theDB ⟨"America/New_York", 1705276800⟩
    = .ok ⟨"America/New_York", "EST", "-05:00", -18000, false,
        some ⟨1710054000, 1730613600, 3600⟩⟩
      ∧ (dateOfDays (1710054000 / 86400)).1 = 2024
      ∧ (dateOfDays (1710054000 / 86400)).2.1 = 3
      ∧ (dateOfDays (1730613600 / 86400)).1 = 2024
      ∧ (dateOfDays (1730613600 / 86400)).2.1 = 11 :=
  ⟨by rfl, by rfl, by rfl, by rfl, by rfl⟩

/-- C7: whenever a time operation fails, the corresponding tool
handler returns the error unchanged together with the zero-valued
result record and no content. -/
theorem claim_C7 : ∀ (e : TimeError) (input : FormatTimeInput),
    getTimeToolHandler (.error e) = ⟨none, zeroGetTimeResult, some e⟩
      ∧ formatTimeToolHandler input (.error e) = ⟨none, zeroFormatTimeResult, some e⟩
      ∧ parseTimeToolHandler (.error e) = ⟨none, zeroParseTimeResult, some e⟩
      ∧ timezoneInfoToolHandler (.error e) = ⟨none, zeroTimezoneInfo, some e⟩ :=
  fun _ _ => ⟨rfl, rfl, rfl, rfl⟩

/-- C8: processing a request history is a pure map over requests: two
positions holding identical requests (including the call instant)
receive identical responses, each determined by the request alone. -/
theorem claim_C8 (db : TZDatabase) (defaultTZ defaultFormat : String)
    (supported : List String) (reqs : List ToolRequest) (i j : Nat) (r : ToolRequest)
    (hi : reqs[i]? = some r) (hj : reqs[j]? = some r) :
    (serverTrace db defaultTZ defaultFormat supported reqs)[i]?
        = (serverTrace db defaultTZ defaultFormat supported reqs)[j]?
      ∧ (serverTrace db defaultTZ defaultFormat supported reqs)[i]?
        = some (processRequest db defaultTZ defaultFormat supported r) := by
  unfold serverTrace
  rw [List.getElem?_map _ reqs i, List.getElem?_map _ reqs j, hi, hj]
  exact ⟨rfl, rfl⟩

/-- C8 witness: two identical get_time requests in one history receive
identical responses. -/
theorem claim_C8_witness :
    ([ToolRequest.getTime 0 0 ⟨"UTC", "RFC3339"⟩,
        ToolRequest.getTime 0 0 ⟨"UTC", "RFC3339"⟩])[0]?
        = some (ToolRequest.getTime 0 0 ⟨"UTC", "RFC3339"⟩)
      ∧ ([ToolRequest.getTime 0 0 ⟨"UTC", "RFC3339"⟩,
          ToolRequest.getTime 0 0 ⟨"UTC", "RFC3339"⟩])[1]?
        = some (ToolRequest.getTime 0 0 ⟨"UTC", "RFC3339"⟩)
      ∧ ((serverTrace theDB "UTC" "RFC3339" defaultSupportedFormats
            [ToolRequest.getTime 0 0 ⟨"UTC", "RFC3339"⟩,
              ToolRequest.getTime 0 0 ⟨"UTC", "RFC3339"⟩])[0]?
          = (serverTrace theDB "UTC" "RFC3339" defaultSupportedFormats
              [ToolRequest.getTime 0 0 ⟨"UTC", "RFC3339"⟩,
                ToolRequest.getTime 0 0 ⟨"UTC", "RFC3339"⟩])[1]?
        ∧ (serverTrace theDB "UTC" "RFC3339" defaultSupportedFormats
            [ToolRequest.getTime 0 0 ⟨"UTC", "RFC3339"⟩,
              ToolRequest.getTime 0 0 ⟨"UTC", "RFC3339"⟩])[0]?
          = some (processRequest theDB "UTC" "RFC3339" defaultSupportedFormats
              (ToolRequest.getTime 0 0 ⟨"UTC", "RFC3339"⟩))) :=
  ⟨rfl, rfl,
    claim_C8 theDB "UTC" "RFC3339" defaultSupportedFormats
      [ToolRequest.getTime 0 0 ⟨"UTC", "RFC3339"⟩,
        ToolRequest.getTime 0 0 ⟨"UTC", "RFC3339"⟩]
      0 1 (ToolRequest.getTime 0 0 ⟨"UTC", "RFC3339"⟩) rfl rfl⟩

/-- C9 counterexample: the health body is not the same on every call;
two calls one second apart produce different bodies. -/
theorem claim_C9_counterexample :
    ¬ ((createHealthHandler "time-mcp-server" "1.0.0" 0).body
        = (createHealthHandler "time-mcp-server" "1.0.0" 1).body) := by decide

/-- C9 (amended): every health request is answered with status 200 and
the JSON status document whose status, service and version fields are
fixed, but whose timestamp field renders the call time, so two calls
have equal bodies exactly when their rendered timestamps agree. -/
theorem claim_C9 : ∀ (serverName serverVersion : String) (t1 t2 : Int),
    (createHealthHandler serverName serverVersion t1).statusCode = 200
      ∧ (createHealthHandler serverName serverVersion t1).contentType
        = "application/json"
      ∧ ((createHealthHandler serverName serverVersion t1).body
          = (createHealthHandler serverName serverVersion t2).body
        ↔ formatWithLayout rfc3339Layout t1 0 0 = formatWithLayout rfc3339Layout t2 0 0) :=
  fun n v t1 t2 => ⟨rfl, rfl, healthBody_inj n v _ _⟩

/-- C10: GetFormatLayout is total and never signals an error: every
format other than RFC3339Nano, recognized or not, maps to the RFC3339
layout, and RFC3339Nano maps to the RFC3339Nano layout. -/
theorem claim_C10 :
    (∀ f : String, f ≠ "RFC3339Nano" → GetFormatLayout f = rfc3339Layout)
      ∧ GetFormatLayout "RFC3339Nano" = rfc3339NanoLayout := by
  constructor
  · intro f hf
    unfold GetFormatLayout
    split_ifs with h1 h2
    · rfl
    · exact absurd (by simpa using h2) hf
    · rfl
  · rfl

/-- C10 witness: the unrecognized token Unix silently maps to the
RFC3339 layout. -/
theorem claim_C10_witness :
    ("Unix" : String) ≠ "RFC3339Nano" ∧ GetFormatLayout "Unix" = rfc3339Layout :=
  ⟨by decide, claim_C10.1 "Unix" (by decide)⟩

end MCPTime
